import Mathlib

/-!
Shallow embedding of the Karplus-Strong notebook
`module1_karplus-strong_algorithm.ipynb`.

The notebook defines the naive repeat-and-truncate loop `KS_1`, the final
recurrence implementation `KS` (with the hardcoded constant `REF_LEN = 50`),
the note-name-to-frequency converter `freq`, and the chord mixer `ks_chord`.
Python floats are modelled as real numbers, a raised Python exception as
`Option.none`, and a note string as a `List Char`.
-/

/-- Sampling rate set globally in the notebook: `Fs = 16000`. -/
def Fs : ℕ := 16000

/-- The loop body of `KS_2`/`KS_3`/`KS`, abstracted over the feedback
coefficient `a` that the source computes before entering the loop:
`y = np.zeros(N); for n in range(0, N): y[n] = (x[n] if n < M else 0) + a * (y[n-M] if n-M >= 0 else 0)`.
`ks_loop a x N` is the list `y[0], ..., y[N-1]`.  Reading `y.getD (n - M) 0`
from the already-built prefix matches the zero-initialized `np.zeros(N)`
array: entries not yet written are `0`. -/
def ks_loop (a : ℝ) (x : List ℝ) : ℕ → List ℝ
  | 0 => []
  | n + 1 =>
    ks_loop a x n ++
      [(if n < x.length then x.getD n 0 else 0) +
        a * (if x.length ≤ n then (ks_loop a x n).getD (n - x.length) 0 else 0)]

/-- The constant `REF_LEN = 50` inside the source function `KS`. -/
def REF_LEN : ℝ := 50

/-- The final source implementation:
`def KS(x, N, alpha = 0.99): REF_LEN = 50; M = len(x); a = alpha ** (float(M) / REF_LEN); ...loop...`.
Python `**` is modelled as `Real.rpow`.  The two agree on every `alpha ≥ 0`
(and on a negative `alpha` with integral exponent), but for a negative
`alpha` with non-integral `M / REF_LEN` Python 2 raises `ValueError` while
`Real.rpow` returns a value, so the model is exact only on `0 ≤ alpha`. -/
noncomputable def KS (x : List ℝ) (N : ℕ) (alpha : ℝ) : List ℝ :=
  ks_loop (alpha ^ ((x.length : ℝ) / REF_LEN)) x N

/-- Modelled from the spec: `synthesize(excitation, outputLength, alpha, referenceLength=50)`.
The source function `KS` hardcodes `REF_LEN = 50`; the spec exposes it as the
parameter `referenceLength`.  At `referenceLength = 50` this definition agrees
with `KS` (see `KS_eq_synthesize_fifty`). -/
noncomputable def synthesize (x : List ℝ) (N : ℕ) (alpha referenceLength : ℝ) : List ℝ :=
  ks_loop (alpha ^ ((x.length : ℝ) / referenceLength)) x N

theorem KS_eq_synthesize_fifty (x : List ℝ) (N : ℕ) (alpha : ℝ) :
    KS x N alpha = synthesize x N alpha 50 := rfl

/-- The naive loop of `KS_1`:
`y = x; while len(y) < N: y = np.append(y, x)`.
The Python loop diverges when `x` is empty and `len(y) < N`; the added guard
`0 < x.length` makes the Lean function return `y` there instead, a case no
claim exercises (all claims about `KS_1` assume a non-empty `x`). -/
def ks1_loop (x : List ℝ) (N : ℕ) (y : List ℝ) : List ℝ :=
  if y.length < N ∧ 0 < x.length then ks1_loop x N (y ++ x) else y
termination_by N - y.length
decreasing_by
  simp only [List.length_append]
  omega

/-- The source function `KS_1`:
`y = x; while len(y) < N: y = np.append(y, x); y = y[0:N+1]; return y`. -/
def KS_1 (x : List ℝ) (N : ℕ) : List ℝ :=
  (ks1_loop x N x).take (N + 1)

/-- The dictionary `SEMITONES = {'A': 0, 'B': 2, 'C': -9, 'D': -7, 'E': -5, 'F': -4, 'G': -2}`
inside the source function `freq`.  The final `else 0` branch would be a
`KeyError` in Python; it is unreachable because every caller has already
checked `'A' <= c <= 'G'`. -/
def SEMITONES (c : Char) : ℤ :=
  if c = 'A' then 0
  else if c = 'B' then 2
  else if c = 'C' then -9
  else if c = 'D' then -7
  else if c = 'E' then -5
  else if c = 'F' then -4
  else if c = 'G' then -2
  else 0

/-- Python 2 `int()` applied to a one-character string: the digit value for
an ASCII digit, a raised `ValueError` (modelled as `none`) otherwise. -/
def intOfChar (c : Char) : Option ℤ :=
  if c.isDigit then some ((c.toNat : ℤ) - 48) else none

/-- The frequency formula at the end of `freq`:
`n = 12 * (octave - 4) + SEMITONES[note[0]] + acc; f = 440 * (2 ** (float(n) / 12.0))`. -/
noncomputable def pitchFreq (letter : Char) (acc octave : ℤ) : ℝ :=
  440 * (2 : ℝ) ^ ((((12 * (octave - 4) + SEMITONES letter + acc : ℤ)) : ℝ) / 12)

/-- The source function `freq(note)`: returns `0` when the length is not 2
or 3, when the first character is outside `'A'..'G'`, or when a length-3
note has a middle character other than `'b'`/`'#'`; otherwise parses the
octave digit (`none` models the `ValueError` from `int()` on a non-digit)
and applies the equal-temperament formula. -/
noncomputable def freq (note : List Char) : Option ℝ :=
  if note.length < 2 ∨ 3 < note.length ∨ note.getD 0 ' ' < 'A' ∨ 'G' < note.getD 0 ' ' then
    some 0
  else if note.length = 3 then
    if note.getD 1 ' ' = 'b' then
      (intOfChar (note.getD 2 ' ')).map (fun octave => pitchFreq (note.getD 0 ' ') (-1) octave)
    else if note.getD 1 ' ' = '#' then
      (intOfChar (note.getD 2 ' ')).map (fun octave => pitchFreq (note.getD 0 ' ') 1 octave)
    else some 0
  else
    (intOfChar (note.getD 1 ' ')).map (fun octave => pitchFreq (note.getD 0 ' ') 0 octave)

/-- `np.round`, which rounds half-integers to the nearest even integer;
elsewhere it agrees with rounding to the nearest integer. -/
noncomputable def npRound (r : ℝ) : ℤ :=
  if Int.fract r = 1 / 2 then 2 * round (r / 2) else round r

/-- The source function `ks_chord(chord, N, alpha)`:
`y = np.zeros(N); for note, gain in chord.iteritems(): x = np.random.randn(int(np.round(float(Fs) / freq(note)))); y = y + gain * KS(x, N, alpha); return y`.
The dictionary is modelled as an association list and `np.random.randn` as a
caller-supplied source `randn` of buffers indexed by the requested length.
A note for which `freq` raises propagates as `none`, and a note with
`freq = 0` is the `ZeroDivisionError` of `float(Fs) / freq(note)`, also
`none`. -/
noncomputable def ks_chord (randn : ℕ → List ℝ) (chord : List (List Char × ℝ)) (N : ℕ)
    (alpha : ℝ) : Option (List ℝ) :=
  chord.foldl
    (fun acc v =>
      acc.bind fun y =>
        (freq v.1).bind fun f =>
          if f = 0 then none
          else
            some (List.zipWith (fun s t => s + t) y
              ((KS (randn (npRound ((Fs : ℝ) / f)).toNat) N alpha).map (fun s => v.2 * s))))
    (some (List.replicate N 0))

/-! ### Basic lemmas about the recurrence loop -/

theorem ks_loop_zero (a : ℝ) (x : List ℝ) : ks_loop a x 0 = [] := rfl

theorem ks_loop_succ (a : ℝ) (x : List ℝ) (n : ℕ) :
    ks_loop a x (n + 1) =
      ks_loop a x n ++
        [(if n < x.length then x.getD n 0 else 0) +
          a * (if x.length ≤ n then (ks_loop a x n).getD (n - x.length) 0 else 0)] := rfl

theorem ks_loop_length (a : ℝ) (x : List ℝ) (N : ℕ) : (ks_loop a x N).length = N := by
  induction N with
  | zero => rfl
  | succ n ih => rw [ks_loop_succ]; simp [ih]

theorem ks_loop_getD_stable (a : ℝ) (x : List ℝ) {n N₁ N₂ : ℕ} (h1 : n < N₁) (h2 : N₁ ≤ N₂) :
    (ks_loop a x N₂).getD n 0 = (ks_loop a x N₁).getD n 0 := by
  induction N₂, h2 using Nat.le_induction with
  | base => rfl
  | succ N₂ hle ih =>
    rw [ks_loop_succ, List.getD_append]
    · exact ih
    · rw [ks_loop_length]; omega

/-- The defining recurrence, read off the finished output buffer: valid for a
non-empty excitation, because then `n - M < n` and the prefix the loop read
is final. -/
theorem ks_loop_getD (a : ℝ) (x : List ℝ) {n N : ℕ} (hM : 1 ≤ x.length) (h : n < N) :
    (ks_loop a x N).getD n 0 =
      (if n < x.length then x.getD n 0 else 0) +
        a * (if x.length ≤ n then (ks_loop a x N).getD (n - x.length) 0 else 0) := by
  have h1 : (ks_loop a x N).getD n 0 = (ks_loop a x (n + 1)).getD n 0 :=
    ks_loop_getD_stable a x (Nat.lt_succ_self n) h
  rw [h1, ks_loop_succ, List.getD_append_right]
  · rw [ks_loop_length, Nat.sub_self]
    by_cases hMn : x.length ≤ n
    · have hsub : n - x.length < n := Nat.sub_lt (Nat.lt_of_lt_of_le hM hMn) hM
      rw [ks_loop_getD_stable a x hsub (Nat.le_of_lt h)]
      simp
    · simp [hMn]
  · rw [ks_loop_length]

theorem take_succ_getD (x : List ℝ) (n : ℕ) (hn : n < x.length) :
    x.take (n + 1) = x.take n ++ [x.getD n 0] := by
  induction x generalizing n with
  | nil => simp at hn
  | cons b t ih =>
    cases n with
    | zero => simp
    | succ m =>
      have hm : m < t.length := by simpa using hn
      simp only [List.take_succ_cons, List.getD_cons_succ, List.cons_append]
      rw [ih m hm]

/-- For `N` at most the excitation length the feedback branch never fires and
the loop copies the excitation prefix. -/
theorem ks_loop_take (a : ℝ) (x : List ℝ) (N : ℕ) (h : N ≤ x.length) :
    ks_loop a x N = x.take N := by
  induction N with
  | zero => rfl
  | succ n ih =>
    have hn : n < x.length := by omega
    rw [ks_loop_succ, ih (by omega), if_pos hn, if_neg (by omega), mul_zero, add_zero,
      take_succ_getD x n hn]

/-! ### Lemmas about the note-to-frequency converter -/

theorem freq_two (l oc : Char) (h1 : ¬(l < 'A')) (h2 : ¬('G' < l)) :
    freq [l, oc] = (intOfChar oc).map (fun octave => pitchFreq l 0 octave) := by
  simp [freq, h1, h2]

theorem freq_sharp (l oc : Char) (h1 : ¬(l < 'A')) (h2 : ¬('G' < l)) :
    freq [l, '#', oc] = (intOfChar oc).map (fun octave => pitchFreq l 1 octave) := by
  simp [freq, h1, h2]

theorem freq_flat (l oc : Char) (h1 : ¬(l < 'A')) (h2 : ¬('G' < l)) :
    freq [l, 'b', oc] = (intOfChar oc).map (fun octave => pitchFreq l (-1) octave) := by
  simp [freq, h1, h2]

theorem pitchFreq_octave_succ (l : Char) (acc o : ℤ) :
    pitchFreq l acc (o + 1) = 2 * pitchFreq l acc o := by
  unfold pitchFreq
  have h12 : ((12 * (o + 1 - 4) + SEMITONES l + acc : ℤ) : ℝ) =
      ((12 * (o - 4) + SEMITONES l + acc : ℤ) : ℝ) + 12 := by push_cast; ring
  rw [h12]
  have hsplit : (((12 * (o - 4) + SEMITONES l + acc : ℤ) : ℝ) + 12) / 12 =
      ((12 * (o - 4) + SEMITONES l + acc : ℤ) : ℝ) / 12 + 1 := by ring
  rw [hsplit, Real.rpow_add (by norm_num : (0 : ℝ) < 2), Real.rpow_one]
  ring

theorem pitchFreq_A4 : pitchFreq 'A' 0 4 = 440 := by
  unfold pitchFreq
  norm_num [SEMITONES]

/-! ### Lemmas about the naive loop of KS_1 -/

/-- Invariants of the `while len(y) < N: y = np.append(y, x)` loop for a
non-empty `x`: the result length is `len(y)` plus a multiple of `len(x)`,
it is at least `N`, it stays below `N + len(x)` when the loop runs, and the
loop is a no-op when `len(y)` already reaches `N`. -/
theorem ks1_loop_spec (x : List ℝ) (hx : 0 < x.length) (N : ℕ) :
    ∀ m y, N - y.length ≤ m →
      ∃ k, (ks1_loop x N y).length = y.length + k * x.length ∧
        N ≤ (ks1_loop x N y).length ∧
        (y.length < N → (ks1_loop x N y).length < N + x.length) ∧
        (N ≤ y.length → ks1_loop x N y = y) := by
  intro m
  induction m with
  | zero =>
    intro y hm
    have hy : N ≤ y.length := by omega
    rw [ks1_loop, if_neg (fun hc => absurd hc.1 (by omega))]
    exact ⟨0, by simp, hy, fun h => absurd h (by omega), fun _ => rfl⟩
  | succ m ih =>
    intro y hm
    by_cases hy : y.length < N
    · rw [ks1_loop, if_pos ⟨hy, hx⟩]
      obtain ⟨k, hk, hN, hub, hstop⟩ := ih (y ++ x) (by simp only [List.length_append]; omega)
      refine ⟨k + 1, ?_, hN, fun _ => ?_, fun hge => absurd hge (by omega)⟩
      · rw [hk]; simp only [List.length_append]; ring
      · by_cases hy2 : (y ++ x).length < N
        · exact hub hy2
        · rw [hstop (by omega)]
          simp only [List.length_append]
          omega
    · rw [ks1_loop, if_neg (fun hc => hy hc.1)]
      exact ⟨0, by simp, by omega, fun h => absurd h hy, fun _ => rfl⟩

/-! ### The claims -/

/-- Claim C1: for every excitation buffer `x` of length `M ≥ 1`, output length
`N ≥ 0`, `alpha` and `referenceLength`, `synthesize` returns a buffer of
length `N` satisfying `y[n] = (x[n] if n < M else 0) + a * (y[n-M] if n-M ≥ 0 else 0)`
with `a = alpha ^ (M / referenceLength)`; with `M = 25`, `alpha = 0.99` and
`referenceLength = 50` (the source `KS`) the coefficient is exactly
`0.99 ^ (25 / 50)`. -/
theorem C1_synthesize_recurrence (x : List ℝ) (N : ℕ) (alpha refLen : ℝ) (hM : 1 ≤ x.length) :
    (synthesize x N alpha refLen).length = N ∧
    (∀ n, n < N →
      (synthesize x N alpha refLen).getD n 0 =
        (if n < x.length then x.getD n 0 else 0) +
          alpha ^ ((x.length : ℝ) / refLen) *
            (if x.length ≤ n then (synthesize x N alpha refLen).getD (n - x.length) 0 else 0)) ∧
    (x.length = 25 → KS x N 0.99 = ks_loop ((0.99 : ℝ) ^ ((25 : ℝ) / 50)) x N) := by
  refine ⟨ks_loop_length _ _ _, fun n hn => ks_loop_getD _ x hM hn, fun h25 => ?_⟩
  rw [KS, h25]
  norm_num [REF_LEN]

theorem C1_synthesize_recurrence_witness :
    1 ≤ ([(1 : ℝ), 2]).length ∧
    ((synthesize [(1 : ℝ), 2] 3 0.9 50).length = 3 ∧
      (∀ n, n < 3 →
        (synthesize [(1 : ℝ), 2] 3 0.9 50).getD n 0 =
          (if n < ([(1 : ℝ), 2]).length then ([(1 : ℝ), 2]).getD n 0 else 0) +
            (0.9 : ℝ) ^ ((([(1 : ℝ), 2]).length : ℝ) / 50) *
              (if ([(1 : ℝ), 2]).length ≤ n then
                (synthesize [(1 : ℝ), 2] 3 0.9 50).getD (n - ([(1 : ℝ), 2]).length) 0 else 0)) ∧
      (([(1 : ℝ), 2]).length = 25 →
        KS [(1 : ℝ), 2] 3 0.99 = ks_loop ((0.99 : ℝ) ^ ((25 : ℝ) / 50)) [(1 : ℝ), 2] 3)) :=
  ⟨by simp, C1_synthesize_recurrence [(1 : ℝ), 2] 3 0.9 50 (by simp)⟩

/-- Claim C2: `synthesize` on excitation `[1,0,0,0,0]`, output length 10,
`alpha = 0.5`, `referenceLength = 5` has `M = 5`, coefficient
`a = 0.5 ^ (5/5) = 0.5`, and returns exactly `[1,0,0,0,0,0.5,0,0,0,0]`. -/
theorem C2_synthesize_scenario :
    ([(1 : ℝ), 0, 0, 0, 0]).length = 5 ∧
    (0.5 : ℝ) ^ ((5 : ℝ) / 5) = 0.5 ∧
    synthesize [(1 : ℝ), 0, 0, 0, 0] 10 0.5 5 = [1, 0, 0, 0, 0, 0.5, 0, 0, 0, 0] := by
  refine ⟨by simp, by norm_num, ?_⟩
  have hc : ((0.5 : ℝ)) ^ ((([(1 : ℝ), 0, 0, 0, 0] : List ℝ).length : ℝ) / 5) = 0.5 := by
    norm_num
  rw [synthesize, hc]
  norm_num [ks_loop, List.getD]

/-- Claim C6: for `alpha = 1` (undamped loop) the output of the source `KS`
is periodic with period `M`: for `M ≥ 1`, `n ≥ M` and `n + M < N`,
`y[n] = y[n + M]`. -/
theorem C6_alpha_one_periodic (x : List ℝ) (N n : ℕ) (hM : 1 ≤ x.length)
    (hn : x.length ≤ n) (hN : n + x.length < N) :
    (KS x N 1).getD n 0 = (KS x N 1).getD (n + x.length) 0 := by
  simp only [KS, Real.one_rpow]
  rw [ks_loop_getD 1 x hM hN, if_neg (by omega : ¬(n + x.length < x.length)),
    if_pos (by omega : x.length ≤ n + x.length), Nat.add_sub_cancel, one_mul, zero_add]

theorem C6_alpha_one_periodic_witness :
    1 ≤ ([(1 : ℝ), 2]).length ∧ ([(1 : ℝ), 2]).length ≤ 2 ∧ 2 + ([(1 : ℝ), 2]).length < 7 ∧
    (KS [(1 : ℝ), 2] 7 1).getD 2 0 = (KS [(1 : ℝ), 2] 7 1).getD (2 + ([(1 : ℝ), 2]).length) 0 :=
  ⟨by simp, by simp, by simp,
    C6_alpha_one_periodic [(1 : ℝ), 2] 7 2 (by simp) (by simp) (by simp)⟩

/-- Claim C7: when the excitation is longer than the requested output
(`M > N`), the feedback never fires and the output is exactly the first `N`
excitation samples, for every `alpha` and `referenceLength`. -/
theorem C7_short_output_is_excitation_prefix (x : List ℝ) (N : ℕ) (alpha refLen : ℝ)
    (h : N < x.length) :
    synthesize x N alpha refLen = x.take N ∧ KS x N alpha = x.take N :=
  ⟨ks_loop_take _ x N (Nat.le_of_lt h), ks_loop_take _ x N (Nat.le_of_lt h)⟩

theorem C7_short_output_is_excitation_prefix_witness :
    2 < ([(1 : ℝ), 2, 3]).length ∧
    (synthesize [(1 : ℝ), 2, 3] 2 0.7 9 = ([(1 : ℝ), 2, 3]).take 2 ∧
      KS [(1 : ℝ), 2, 3] 2 0.7 = ([(1 : ℝ), 2, 3]).take 2) :=
  ⟨by simp, C7_short_output_is_excitation_prefix [(1 : ℝ), 2, 3] 2 0.7 9 (by simp)⟩

/-- Claim C3: for every well-formed pitch (letter between `'A'` and `'G'`,
optional accidental `'#'` or `'b'`, octave digit), `freq` returns
`440 * 2 ^ (n / 12)` with `n = 12 * (octave - 4) + semitoneOffset(letter) + accidental`
and the lookup `A=0, B=2, C=-9, D=-7, E=-5, F=-4, G=-2`; in particular `C5`
resolves to `440 * 2 ^ (3 / 12)`. -/
theorem C3_freq_formula (l oc : Char) (o : ℤ) (h1 : 'A' ≤ l) (h2 : l ≤ 'G')
    (ho : intOfChar oc = some o) :
    SEMITONES 'A' = 0 ∧ SEMITONES 'B' = 2 ∧ SEMITONES 'C' = -9 ∧ SEMITONES 'D' = -7 ∧
    SEMITONES 'E' = -5 ∧ SEMITONES 'F' = -4 ∧ SEMITONES 'G' = -2 ∧
    freq [l, oc] = some (440 * (2 : ℝ) ^ (((12 * (o - 4) + SEMITONES l : ℤ) : ℝ) / 12)) ∧
    freq [l, '#', oc] =
      some (440 * (2 : ℝ) ^ (((12 * (o - 4) + SEMITONES l + 1 : ℤ) : ℝ) / 12)) ∧
    freq [l, 'b', oc] =
      some (440 * (2 : ℝ) ^ (((12 * (o - 4) + SEMITONES l + (-1) : ℤ) : ℝ) / 12)) ∧
    freq ['C', '5'] = some (440 * (2 : ℝ) ^ ((3 : ℝ) / 12)) := by
  have h1' : ¬(l < 'A') := not_lt.mpr h1
  have h2' : ¬('G' < l) := not_lt.mpr h2
  have e0 : (12 * (o - 4) + SEMITONES l + 0 : ℤ) = 12 * (o - 4) + SEMITONES l := by ring
  refine ⟨by decide, by decide, by decide, by decide, by decide, by decide, by decide,
    ?_, ?_, ?_, ?_⟩
  · rw [freq_two l oc h1' h2', ho]
    simp only [Option.map_some', pitchFreq, e0]
  · rw [freq_sharp l oc h1' h2', ho]
    simp only [Option.map_some', pitchFreq]
  · rw [freq_flat l oc h1' h2', ho]
    simp only [Option.map_some', pitchFreq]
  · have hC : (12 * ((5 : ℤ) - 4) + SEMITONES 'C' + 0 : ℤ) = 3 := by decide
    rw [freq_two 'C' '5' (by decide) (by decide), show intOfChar '5' = some 5 from by decide]
    simp only [Option.map_some', Option.some.injEq, pitchFreq, hC]
    norm_num

theorem C3_freq_formula_witness :
    'A' ≤ 'C' ∧ 'C' ≤ 'G' ∧ intOfChar '5' = some 5 ∧
    (SEMITONES 'A' = 0 ∧ SEMITONES 'B' = 2 ∧ SEMITONES 'C' = -9 ∧ SEMITONES 'D' = -7 ∧
      SEMITONES 'E' = -5 ∧ SEMITONES 'F' = -4 ∧ SEMITONES 'G' = -2 ∧
      freq ['C', '5'] =
        some (440 * (2 : ℝ) ^ (((12 * ((5 : ℤ) - 4) + SEMITONES 'C' : ℤ) : ℝ) / 12)) ∧
      freq ['C', '#', '5'] =
        some (440 * (2 : ℝ) ^ (((12 * ((5 : ℤ) - 4) + SEMITONES 'C' + 1 : ℤ) : ℝ) / 12)) ∧
      freq ['C', 'b', '5'] =
        some (440 * (2 : ℝ) ^ (((12 * ((5 : ℤ) - 4) + SEMITONES 'C' + (-1) : ℤ) : ℝ) / 12)) ∧
      freq ['C', '5'] = some (440 * (2 : ℝ) ^ ((3 : ℝ) / 12))) :=
  ⟨by decide, by decide, by decide, C3_freq_formula 'C' '5' 5 (by decide) (by decide) (by decide)⟩

/-- Claim C5, counterexample: `freq` on the malformed pitch `H4` does not
fail with `InvalidPitch`; it returns the sentinel value `0`. -/
theorem C5_sentinel_counterexample : freq ['H', '4'] = some 0 := by
  simp [freq]

/-- Claim C5, amended: a malformed letter or accidental (or a length outside
2..3) makes `freq` return the sentinel `0` instead of raising; only a
non-digit octave character makes it fail, with an uncaught `ValueError` from
`int()` (modelled as `none`), not an `InvalidPitch` error. -/
theorem C5_amended_freq_malformed (note : List Char) (l a oc : Char)
    (hbad : note.length < 2 ∨ 3 < note.length ∨ note.getD 0 ' ' < 'A' ∨ 'G' < note.getD 0 ' ')
    (h1 : 'A' ≤ l) (h2 : l ≤ 'G') (ha : a ≠ 'b') (ha2 : a ≠ '#') (hoc : ¬oc.isDigit) :
    freq note = some 0 ∧ freq [l, a, oc] = some 0 ∧ freq [l, oc] = none := by
  have h1' : ¬(l < 'A') := not_lt.mpr h1
  have h2' : ¬('G' < l) := not_lt.mpr h2
  refine ⟨by rw [freq, if_pos hbad], ?_, ?_⟩
  · simp [freq, h1', h2', ha, ha2]
  · rw [freq_two l oc h1' h2']
    simp [intOfChar, hoc]

theorem C5_amended_freq_malformed_witness :
    ((['H', '4'] : List Char).length < 2 ∨ 3 < (['H', '4'] : List Char).length ∨
      (['H', '4'] : List Char).getD 0 ' ' < 'A' ∨ 'G' < (['H', '4'] : List Char).getD 0 ' ') ∧
    'A' ≤ 'A' ∧ 'A' ≤ 'G' ∧ 'x' ≠ 'b' ∧ 'x' ≠ '#' ∧ ¬('Z'.isDigit) ∧
    (freq ['H', '4'] = some 0 ∧ freq ['A', 'x', 'Z'] = some 0 ∧ freq ['A', 'Z'] = none) :=
  ⟨by decide, by decide, by decide, by decide, by decide, by decide,
    C5_amended_freq_malformed ['H', '4'] 'A' 'x' 'Z' (by decide) (by decide) (by decide)
      (by decide) (by decide) (by decide)⟩

/-- Claim C8: `freq` of `A4` is exactly `440`, `freq` of `A5` is twice
`freq` of `A4`, and for every valid pitch raising the octave by one doubles
the result (with or without an accidental). -/
theorem C8_freq_octave_doubling (l oc1 oc2 : Char) (o : ℤ) (h1 : 'A' ≤ l) (h2 : l ≤ 'G')
    (ho1 : intOfChar oc1 = some o) (ho2 : intOfChar oc2 = some (o + 1)) :
    freq ['A', '4'] = some 440 ∧
    (∃ f, freq ['A', '4'] = some f ∧ freq ['A', '5'] = some (2 * f)) ∧
    (∃ f, freq [l, oc1] = some f ∧ freq [l, oc2] = some (2 * f)) ∧
    (∃ f, freq [l, '#', oc1] = some f ∧ freq [l, '#', oc2] = some (2 * f)) ∧
    (∃ f, freq [l, 'b', oc1] = some f ∧ freq [l, 'b', oc2] = some (2 * f)) := by
  have h1' : ¬(l < 'A') := not_lt.mpr h1
  have h2' : ¬('G' < l) := not_lt.mpr h2
  have hA4 : freq ['A', '4'] = some 440 := by
    rw [freq_two 'A' '4' (by decide) (by decide), show intOfChar '4' = some 4 from by decide]
    simp only [Option.map_some', pitchFreq_A4]
  have hA5 : freq ['A', '5'] = some (2 * 440) := by
    rw [freq_two 'A' '5' (by decide) (by decide), show intOfChar '5' = some 5 from by decide]
    simp only [Option.map_some', Option.some.injEq]
    rw [show (5 : ℤ) = 4 + 1 from by decide, pitchFreq_octave_succ, pitchFreq_A4]
  refine ⟨hA4, ⟨440, hA4, hA5⟩, ?_, ?_, ?_⟩
  · refine ⟨pitchFreq l 0 o, by rw [freq_two l oc1 h1' h2', ho1]; rfl, ?_⟩
    rw [freq_two l oc2 h1' h2', ho2]
    simp only [Option.map_some', Option.some.injEq]
    exact pitchFreq_octave_succ l 0 o
  · refine ⟨pitchFreq l 1 o, by rw [freq_sharp l oc1 h1' h2', ho1]; rfl, ?_⟩
    rw [freq_sharp l oc2 h1' h2', ho2]
    simp only [Option.map_some', Option.some.injEq]
    exact pitchFreq_octave_succ l 1 o
  · refine ⟨pitchFreq l (-1) o, by rw [freq_flat l oc1 h1' h2', ho1]; rfl, ?_⟩
    rw [freq_flat l oc2 h1' h2', ho2]
    simp only [Option.map_some', Option.some.injEq]
    exact pitchFreq_octave_succ l (-1) o

theorem C8_freq_octave_doubling_witness :
    'A' ≤ 'D' ∧ 'D' ≤ 'G' ∧ intOfChar '2' = some 2 ∧ intOfChar '3' = some (2 + 1) ∧
    (freq ['A', '4'] = some 440 ∧
      (∃ f, freq ['A', '4'] = some f ∧ freq ['A', '5'] = some (2 * f)) ∧
      (∃ f, freq ['D', '2'] = some f ∧ freq ['D', '3'] = some (2 * f)) ∧
      (∃ f, freq ['D', '#', '2'] = some f ∧ freq ['D', '#', '3'] = some (2 * f)) ∧
      (∃ f, freq ['D', 'b', '2'] = some f ∧ freq ['D', 'b', '3'] = some (2 * f))) :=
  ⟨by decide, by decide, by decide, by decide,
    C8_freq_octave_doubling 'D' '2' '3' 2 (by decide) (by decide) (by decide) (by decide)⟩

/-- Claim C9: `ks_chord` on an empty chord returns a zero-filled buffer of
length `N` rather than failing, for every output length `N`, every `alpha`
and every random source; the buffer has length `N` and every sample is 0. -/
theorem C9_ks_chord_empty (randn : ℕ → List ℝ) (N : ℕ) (alpha : ℝ) :
    ks_chord randn [] N alpha = some (List.replicate N 0) ∧
    (List.replicate N (0 : ℝ)).length = N ∧
    (∀ i, (List.replicate N (0 : ℝ)).getD i 0 = 0) := by
  refine ⟨rfl, by simp, fun i => ?_⟩
  by_cases h : i < N
  · rw [List.getD_eq_getElem _ _ (by simpa using h)]
    simp
  · exact List.getD_eq_default _ _ (by simpa using not_lt.mp h)

/-- Claim C10: for a non-empty excitation `x`, `KS_1 x N` has length `N`
when `len(x)` divides `N ≥ 1`, length `N + 1` otherwise (the trim takes
`y[0:N+1]`), and a single sample when `N = 0`. -/
theorem C10_KS_1_length (x : List ℝ) (N : ℕ) (hx : x ≠ []) :
    (x.length ∣ N → 1 ≤ N → (KS_1 x N).length = N) ∧
    (¬x.length ∣ N → (KS_1 x N).length = N + 1) ∧
    (KS_1 x 0).length = 1 := by
  have hxl : 0 < x.length := List.length_pos.mpr hx
  obtain ⟨k, hk, hN, hub, hstop⟩ := ks1_loop_spec x hxl N N x (by omega)
  have hdvd : x.length ∣ (ks1_loop x N x).length := by
    rw [hk]; exact ⟨1 + k, by ring⟩
  have hlen : (KS_1 x N).length = min (N + 1) (ks1_loop x N x).length := by
    rw [KS_1, List.length_take]
  refine ⟨fun hdN hN1 => ?_, fun hnd => ?_, ?_⟩
  · have hMN : x.length ≤ N := Nat.le_of_dvd (by omega) hdN
    have hLN : (ks1_loop x N x).length = N := by
      by_cases hlt : x.length < N
      · have h1 : (ks1_loop x N x).length < N + x.length := hub hlt
        have h2 : x.length ∣ (ks1_loop x N x).length - N := Nat.dvd_sub' hdvd hdN
        have h4 : (ks1_loop x N x).length - N = 0 := by
          rcases Nat.eq_zero_or_pos ((ks1_loop x N x).length - N) with h | h
          · exact h
          · exact absurd (Nat.le_of_dvd h h2) (by omega)
        omega
      · have hxN : N ≤ x.length := by omega
        rw [hstop hxN]
        omega
    rw [hlen, hLN]
    omega
  · have hne : (ks1_loop x N x).length ≠ N := fun h => hnd (h ▸ hdvd)
    rw [hlen]
    omega
  · obtain ⟨k0, hk0, hN0, hub0, hstop0⟩ := ks1_loop_spec x hxl 0 0 x (by omega)
    rw [KS_1, hstop0 (by omega), List.length_take]
    omega

theorem C10_KS_1_length_witness :
    (([(1 : ℝ), 2] : List ℝ) ≠ [] ∧
      (([(1 : ℝ), 2]).length ∣ 4 → 1 ≤ 4 → (KS_1 [(1 : ℝ), 2] 4).length = 4) ∧
      (¬([(1 : ℝ), 2]).length ∣ 4 → (KS_1 [(1 : ℝ), 2] 4).length = 4 + 1) ∧
      (KS_1 [(1 : ℝ), 2] 0).length = 1) ∧
    (([(1 : ℝ), 2, 3] : List ℝ) ≠ [] ∧
      (([(1 : ℝ), 2, 3]).length ∣ 4 → 1 ≤ 4 → (KS_1 [(1 : ℝ), 2, 3] 4).length = 4) ∧
      (¬([(1 : ℝ), 2, 3]).length ∣ 4 → (KS_1 [(1 : ℝ), 2, 3] 4).length = 4 + 1) ∧
      (KS_1 [(1 : ℝ), 2, 3] 0).length = 1) :=
  ⟨⟨by simp, (C10_KS_1_length [(1 : ℝ), 2] 4 (by simp)).1,
      (C10_KS_1_length [(1 : ℝ), 2] 4 (by simp)).2.1,
      (C10_KS_1_length [(1 : ℝ), 2] 4 (by simp)).2.2⟩,
    ⟨by simp, (C10_KS_1_length [(1 : ℝ), 2, 3] 4 (by simp)).1,
      (C10_KS_1_length [(1 : ℝ), 2, 3] 4 (by simp)).2.1,
      (C10_KS_1_length [(1 : ℝ), 2, 3] 4 (by simp)).2.2⟩⟩
